import Mathlib

/-!
Verification of the request/response translation layer of the Perplexity
MCP server repository.

The embedding below translates, function by function, the TypeScript
sources:
  * src/server.ts        — validateMessages, stripThinkingTokens,
                           consumeSSEStream, performChatCompletion
                           (citation appending, zod-error classification),
                           formatSearchResults, performSearch
  * perplexity-search/server.ts — formatSearchResults, performSearch
                           (multi-query limit)
  * the date/domain filter generation (validateFilters, validateDateFilters)

Text is modelled as `List Char` where line-buffering proofs are needed
(the SSE stream assembler), and as `String` elsewhere.  JavaScript values
flowing out of `JSON.parse` are modelled by the inductive type `Json`;
JavaScript truthiness and property access are modelled explicitly.
-/

/-! ### Character and list-of-char utilities -/

/-- Whitespace for the model of JavaScript `String.prototype.trim`
(ASCII whitespace plus NBSP and BOM, the cases that occur in practice). -/
def isJsWsChar (c : Char) : Bool :=
  c = ' ' || c = '\t' || c = '\n' || c = '\r' ||
  c = '\x0b' || c = '\x0c' || c = ' ' || c = '﻿'

/-- Model of JavaScript `trim`: drop leading and trailing whitespace. -/
def trimL (s : List Char) : List Char :=
  ((s.dropWhile isJsWsChar).reverse.dropWhile isJsWsChar).reverse

/-- Boolean prefix test on char lists. -/
def startsWithL : List Char → List Char → Bool
  | [], _ => true
  | _ :: _, [] => false
  | p :: ps, c :: cs => p = c && startsWithL ps cs

/-- Model of JavaScript `buffer.split("\n")`: split a char list at every
newline.  The result is always non-empty; text before the first newline is
the first piece, text after the last newline is the last piece. -/
def splitNl : List Char → List (List Char)
  | [] => [[]]
  | c :: rest =>
    if c = '\n' then [] :: splitNl rest
    else
      match splitNl rest with
      | [] => [[c]]
      | l :: ls => (c :: l) :: ls

/-! ### JavaScript values: the `Json` type and a model of `JSON.parse` -/

/-- A parsed JSON value.  Numbers keep their source lexeme: no claim in
scope interprets a numeric value, only stores or tests it for truthiness. -/
inductive Json where
  | null : Json
  | bool (b : Bool) : Json
  | num (lex : List Char) : Json
  | str (s : List Char) : Json
  | arr (elems : List Json) : Json
  | obj (fields : List (List Char × Json)) : Json

def isDigitChar (c : Char) : Bool := '0' ≤ c && c ≤ '9'

def isJsonSpace (c : Char) : Bool :=
  c = ' ' || c = '\t' || c = '\n' || c = '\r'

def skipWs (s : List Char) : List Char := s.dropWhile isJsonSpace

def hexVal (c : Char) : Option Nat :=
  if '0' ≤ c && c ≤ '9' then some (c.toNat - 48)
  else if 'a' ≤ c && c ≤ 'f' then some (c.toNat - 87)
  else if 'A' ≤ c && c ≤ 'F' then some (c.toNat - 55)
  else none

def hex4 (a b c d : Char) : Option Nat := do
  let x ← hexVal a
  let y ← hexVal b
  let z ← hexVal c
  let w ← hexVal d
  pure (((x * 16 + y) * 16 + z) * 16 + w)

/-- Decode one escape character (the char after a backslash, except `u`). -/
def jsonEscChar (c : Char) : Option Char :=
  if c = '"' then some '"'
  else if c = '\\' then some '\\'
  else if c = '/' then some '/'
  else if c = 'b' then some '\x08'
  else if c = 'f' then some '\x0c'
  else if c = 'n' then some '\n'
  else if c = 'r' then some '\r'
  else if c = 't' then some '\t'
  else none

/-- Body of a JSON string literal (after the opening quote).  Returns the
decoded contents and the input following the closing quote.  Surrogate
pairs from two `\uXXXX` escapes are combined; a lone surrogate maps to
U+FFFD (Lean chars are scalar values, JS strings are UTF-16). -/
def parseJString : Nat → List Char → Option (List Char × List Char)
  | 0, _ => none
  | _ + 1, [] => none
  | _ + 1, '"' :: rest => some ([], rest)
  | fuel + 1, '\\' :: esc =>
    match esc with
    | 'u' :: a :: b :: c :: d :: r =>
      match hex4 a b c d with
      | none => none
      | some n =>
        if 0xD800 ≤ n && n ≤ 0xDBFF then
          match r with
          | '\\' :: 'u' :: a2 :: b2 :: c2 :: d2 :: r2 =>
            match hex4 a2 b2 c2 d2 with
            | some m =>
              if 0xDC00 ≤ m && m ≤ 0xDFFF then
                match parseJString fuel r2 with
                | some (cs, rest) =>
                  some (Char.ofNat (0x10000 + (n - 0xD800) * 0x400 + (m - 0xDC00)) :: cs, rest)
                | none => none
              else
                match parseJString fuel r with
                | some (cs, rest) => some ('�' :: cs, rest)
                | none => none
            | none =>
              match parseJString fuel r with
              | some (cs, rest) => some ('�' :: cs, rest)
              | none => none
          | _ =>
            match parseJString fuel r with
            | some (cs, rest) => some ('�' :: cs, rest)
            | none => none
        else if 0xDC00 ≤ n && n ≤ 0xDFFF then
          match parseJString fuel r with
          | some (cs, rest) => some ('�' :: cs, rest)
          | none => none
        else
          match parseJString fuel r with
          | some (cs, rest) => some (Char.ofNat n :: cs, rest)
          | none => none
    | e :: r =>
      match jsonEscChar e with
      | some c =>
        match parseJString fuel r with
        | some (cs, rest) => some (c :: cs, rest)
        | none => none
      | none => none
    | [] => none
  | fuel + 1, c :: rest =>
    if c.toNat < 0x20 then none
    else
      match parseJString fuel rest with
      | some (cs, r) => some (c :: cs, r)
      | none => none

def takeDigits (s : List Char) : List Char × List Char :=
  (s.takeWhile isDigitChar, s.dropWhile isDigitChar)

/-- Lex a JSON number, returning its source lexeme and the rest of the
input.  Grammar: `-?(0|[1-9][0-9]*)(\.[0-9]+)?([eE][+-]?[0-9]+)?`. -/
def parseJNumber (s : List Char) : Option (List Char × List Char) := do
  let (sign, s1) :=
    match s with
    | '-' :: r => (['-'], r)
    | _ => (([] : List Char), s)
  let (intPart, s2) ←
    match s1 with
    | '0' :: r => some ((['0'] : List Char), r)
    | c :: _ =>
      if '1' ≤ c && c ≤ '9' then
        let (ds, r) := takeDigits s1
        some (ds, r)
      else none
    | [] => none
  let (fracPart, s3) ←
    match s2 with
    | '.' :: r =>
      let (ds, r2) := takeDigits r
      if ds.isEmpty then none else some ('.' :: ds, r2)
    | _ => some (([] : List Char), s2)
  let (expPart, s4) ←
    match s3 with
    | c :: r =>
      if c = 'e' || c = 'E' then
        let (esign, r2) :=
          match r with
          | '+' :: rr => (['+'], rr)
          | '-' :: rr => (['-'], rr)
          | _ => (([] : List Char), r)
        let (ds, r3) := takeDigits r2
        if ds.isEmpty then none else some (c :: (esign ++ ds), r3)
      else some (([] : List Char), s3)
    | [] => some (([] : List Char), s3)
  pure (sign ++ intPart ++ fracPart ++ expPart, s4)

mutual

/-- Parse one JSON value (model of the grammar accepted by `JSON.parse`). -/
def parseValue : Nat → List Char → Option (Json × List Char)
  | 0, _ => none
  | fuel + 1, s =>
    match skipWs s with
    | 'n' :: 'u' :: 'l' :: 'l' :: r => some (Json.null, r)
    | 't' :: 'r' :: 'u' :: 'e' :: r => some (Json.bool true, r)
    | 'f' :: 'a' :: 'l' :: 's' :: 'e' :: r => some (Json.bool false, r)
    | '"' :: r =>
      match parseJString fuel r with
      | some (cs, rest) => some (Json.str cs, rest)
      | none => none
    | '[' :: r =>
      match skipWs r with
      | ']' :: r2 => some (Json.arr [], r2)
      | r2 =>
        match parseElems fuel r2 with
        | some (vs, rest) => some (Json.arr vs, rest)
        | none => none
    | '{' :: r =>
      match skipWs r with
      | '}' :: r2 => some (Json.obj [], r2)
      | r2 =>
        match parseMembers fuel r2 with
        | some (fs, rest) => some (Json.obj fs, rest)
        | none => none
    | s2 =>
      match parseJNumber s2 with
      | some (lex, rest) => some (Json.num lex, rest)
      | none => none

/-- Elements of a JSON array (after the opening bracket, at least one). -/
def parseElems : Nat → List Char → Option (List Json × List Char)
  | 0, _ => none
  | fuel + 1, s =>
    match parseValue fuel s with
    | none => none
    | some (v, rest) =>
      match skipWs rest with
      | ',' :: r =>
        match parseElems fuel r with
        | some (vs, rest2) => some (v :: vs, rest2)
        | none => none
      | ']' :: r => some ([v], r)
      | _ => none

/-- Members of a JSON object (after the opening brace, at least one). -/
def parseMembers : Nat → List Char → Option (List (List Char × Json) × List Char)
  | 0, _ => none
  | fuel + 1, s =>
    match skipWs s with
    | '"' :: r =>
      match parseJString fuel r with
      | none => none
      | some (k, rest) =>
        match skipWs rest with
        | ':' :: r2 =>
          match parseValue fuel r2 with
          | none => none
          | some (v, rest2) =>
            match skipWs rest2 with
            | ',' :: r3 =>
              match parseMembers fuel r3 with
              | some (fs, rest3) => some ((k, v) :: fs, rest3)
              | none => none
            | '}' :: r3 => some ([(k, v)], r3)
            | _ => none
        | _ => none
    | _ => none

end

/-- Model of `JSON.parse` on decoded text: parse one value and require
only trailing whitespace after it.  `none` models a thrown `SyntaxError`. -/
def parseJson (s : List Char) : Option Json :=
  match parseValue (2 * s.length + 4) s with
  | some (j, rest) => if skipWs rest = [] then some j else none
  | none => none

/-! ### JavaScript value semantics used by the stream assembler -/

/-- Does the mantissa of a JSON number lexeme contain a nonzero digit?
For a valid lexeme this decides JavaScript truthiness of the number
(`0`, `0.0`, `-0`, `0e5` are falsy). -/
def numLexTruthy (lex : List Char) : Bool :=
  (lex.takeWhile (fun c => c ≠ 'e' && c ≠ 'E')).any
    (fun c => '1' ≤ c && c ≤ '9')

/-- JavaScript truthiness of a parsed JSON value. -/
def jsTruthy : Json → Bool
  | Json.null => false
  | Json.bool b => b
  | Json.num lex => numLexTruthy lex
  | Json.str s => !s.isEmpty
  | Json.arr _ => true
  | Json.obj _ => true

/-- Truthiness with `none` standing for JavaScript `undefined`. -/
def jsTruthyO : Option Json → Bool
  | none => false
  | some j => jsTruthy j

/-- Last-occurrence lookup in an object's field list (`JSON.parse` keeps
the last of duplicate keys, and later fields shadow earlier ones). -/
def objLookup : List (List Char × Json) → List Char → Option Json
  | [], _ => none
  | (k2, v) :: rest, k =>
    match objLookup rest k with
    | some v2 => some v2
    | none => if k2 = k then some v else none

/-- JavaScript property access `x.k`: only objects carry the properties
read by the assembler; on every other value the result is `undefined`. -/
def jget (j : Json) (k : List Char) : Option Json :=
  match j with
  | Json.obj fields => objLookup fields k
  | _ => none

/-- JavaScript `x[0]`: first element of an array, property "0" of an
object, first UTF-16 unit of a string, `undefined` otherwise. -/
def jindex0 : Json → Option Json
  | Json.arr (x :: _) => some x
  | Json.arr [] => none
  | Json.obj fields => objLookup fields ['0']
  | Json.str (c :: _) => some (Json.str [c])
  | Json.str [] => none
  | _ => none

/-- Optional-chained property access `v?.k` on an intermediate result:
`null`/`undefined` short-circuit to `undefined`. -/
def jchainGet (v : Option Json) (k : List Char) : Option Json
  := match v with
  | none => none
  | some Json.null => none
  | some j => jget j k

/-- Optional-chained index `v?.[0]`. -/
def jchainIdx0 (v : Option Json) : Option Json
  := match v with
  | none => none
  | some Json.null => none
  | some j => jindex0 j

mutual

/-- Model of JavaScript string coercion `String(x)` for parsed JSON
values (numbers coerce via their source lexeme). -/
def jsToStr : Json → List Char
  | Json.null => ("null").data
  | Json.bool true => ("true").data
  | Json.bool false => ("false").data
  | Json.num lex => lex
  | Json.str s => s
  | Json.arr xs => jsArrToStr xs
  | Json.obj _ => ("[object Object]").data

/-- Array coercion: elements joined with commas, `null` rendered empty
(the `Array.prototype.join` rule). -/
def jsArrToStr : List Json → List Char
  | [] => []
  | [Json.null] => []
  | [x] => jsToStr x
  | Json.null :: xs => ',' :: jsArrToStr xs
  | x :: xs => jsToStr x ++ ',' :: jsArrToStr xs

end

/-! ### The streaming assembler (`consumeSSEStream`, src/server.ts) -/

/-- Mutable state of the SSE consumption loop: the retained partial line
plus the accumulator fields of src/server.ts lines 72–78.  Content parts
keep the raw pushed values; metadata fields hold the last truthy value. -/
structure SSEState where
  buffer : List Char
  contentParts : List Json
  citations : Option Json
  usage : Option Json
  id : Option Json
  model : Option Json
  created : Option Json

/-- Initial accumulator state (empty buffer, nothing observed). -/
def initSSE : SSEState :=
  { buffer := [], contentParts := [], citations := none, usage := none,
    id := none, model := none, created := none }

/-- The per-object updates of the SSE loop body (src/server.ts lines
100–109): overwrite each metadata field carried with a truthy value, then
append a truthy `choices[0].delta.content` fragment. -/
def processParsed (st : SSEState) (parsed : Json) : SSEState :=
  let st := if jsTruthyO (jget parsed (("id").data)) then
    { st with id := jget parsed (("id").data) } else st
  let st := if jsTruthyO (jget parsed (("model").data)) then
    { st with model := jget parsed (("model").data) } else st
  let st := if jsTruthyO (jget parsed (("created").data)) then
    { st with created := jget parsed (("created").data) } else st
  let st := if jsTruthyO (jget parsed (("citations").data)) then
    { st with citations := jget parsed (("citations").data) } else st
  let st := if jsTruthyO (jget parsed (("usage").data)) then
    { st with usage := jget parsed (("usage").data) } else st
  let delta := jchainGet (jchainIdx0 (jget parsed (("choices").data)))
    (("delta").data)
  let content := jchainGet delta (("content").data)
  if jsTruthyO content then
    { st with contentParts := st.contentParts ++ content.toList }
  else st

/-- Per-line step of the SSE loop (src/server.ts lines 90–113): trim,
skip non-`data:` lines, strip the marker, ignore the `[DONE]` token,
parse the payload as JSON (a parse failure — including `null`, on which
the subsequent property read throws inside the same try — is silently
skipped), then apply the per-object updates. -/
def processLine (st : SSEState) (line : List Char) : SSEState :=
  let trimmed := trimL line
  if trimmed.isEmpty then st
  else if !startsWithL (("data:").data) trimmed then st
  else
    let d := trimL (trimmed.drop (("data:").data.length))
    if d = ("[DONE]").data then st
    else
      match parseJson d with
      | none => st
      | some Json.null => st
      | some parsed => processParsed st parsed

/-- Per-chunk step (src/server.ts lines 84–113): append the decoded chunk
to the retained buffer, split on newlines, keep the last (possibly
incomplete) piece as the new buffer, and run the line step on every
complete line. -/
def processChunk (st : SSEState) (chunk : List Char) : SSEState :=
  let pieces := splitNl (st.buffer ++ chunk)
  let st2 := (pieces.dropLast).foldl processLine st
  { st2 with buffer := pieces.getLastD [] }

/-- The whole stream loop: fold the chunk step from the initial state.
Text remaining in the buffer at stream end is never parsed. -/
def consumeSSEStream (chunks : List (List Char)) : SSEState :=
  chunks.foldl processChunk initSSE

/-- Element coercion of `Array.prototype.join`: `null` (and `undefined`)
render as the empty string, every other value via `String(x)`. -/
def joinElemStr : Json → List Char
  | Json.null => []
  | j => jsToStr j

/-- The assembled `message.content`: `contentParts.join("")`
(src/server.ts line 119). -/
def sseContent (chunks : List (List Char)) : List Char :=
  ((consumeSSEStream chunks).contentParts.map joinElemStr).flatten

/-- Specification-side description of the fragment a single complete line
contributes: the truthy `choices[0].delta.content` of a well-formed
`data:` line, and nothing otherwise.  Used to state that assembly
concatenates fragments in arrival order. -/
def lineFragment (line : List Char) : Option Json :=
  let trimmed := trimL line
  if trimmed.isEmpty then none
  else if !startsWithL (("data:").data) trimmed then none
  else
    let d := trimL (trimmed.drop (("data:").data.length))
    if d = ("[DONE]").data then none
    else
      match parseJson d with
      | none => none
      | some Json.null => none
      | some parsed =>
        let delta := jchainGet (jchainIdx0 (jget parsed (("choices").data)))
          (("delta").data)
        let content := jchainGet delta (("content").data)
        if jsTruthyO content then content else none

/-! ### Message validation (`validateMessages`, src/server.ts lines 40–57) -/

/-- JavaScript `typeof x === "object"` on a parsed JSON value
(`null` and arrays are also of typeof object). -/
def jsTypeofObject : Json → Bool
  | Json.null => true
  | Json.obj _ => true
  | Json.arr _ => true
  | _ => false

/-- Is the (possibly absent) value a string? -/
def isJsonStr : Option Json → Bool
  | some (Json.str _) => true
  | _ => false

/-- Per-element check of `validateMessages`: the element must be a truthy
object, `role` must be a truthy string, `content` must not be
undefined/null and must be a string. -/
def checkMessage (i : Nat) (m : Json) : Except String Unit :=
  if !jsTruthy m || !jsTypeofObject m then
    Except.error ("Invalid message at index " ++ toString i ++ ": must be an object")
  else if !jsTruthyO (jget m (("role").data)) || !isJsonStr (jget m (("role").data)) then
    Except.error ("Invalid message at index " ++ toString i ++ ": \x27role\x27 must be a string")
  else
    match jget m (("content").data) with
    | some (Json.str _) => Except.ok ()
    | _ => Except.error ("Invalid message at index " ++ toString i ++ ": \x27content\x27 must be a string")

/-- Index loop of `validateMessages` (first failing index wins). -/
def validateMessagesLoop : Nat → List Json → Except String Unit
  | _, [] => Except.ok ()
  | i, m :: rest =>
    match checkMessage i m with
    | Except.ok () => validateMessagesLoop (i + 1) rest
    | Except.error e => Except.error e

/-- `validateMessages(messages, toolName)`: reject non-arrays, then check
each element in order. -/
def validateMessages (messages : Json) (toolName : String) : Except String Unit :=
  match messages with
  | Json.arr ms => validateMessagesLoop 0 ms
  | _ =>
    Except.error ("Invalid arguments for " ++ toolName ++ ": \x27messages\x27 must be an array")

/-- Executable characterization used in the claim statement: an element
passes `checkMessage` iff it is an object carrying a non-empty string
`role` and a string `content`. -/
def goodMessage (m : Json) : Bool :=
  (jsTruthy m && jsTypeofObject m) &&
  (match jget m (("role").data) with
   | some (Json.str s) => !s.isEmpty
   | _ => false) &&
  (match jget m (("content").data) with
   | some (Json.str _) => true
   | _ => false)

/-! ### Response-schema validation and error classification -/

/-- A component of a zod issue path (string keys and numeric indices). -/
inductive PathItem where
  | key (s : String) : PathItem
  | idx (n : Nat) : PathItem

/-- A zod validation issue: only the path is inspected by the caller. -/
structure ZodIssue where
  path : List PathItem

/-- Model of JavaScript `path.includes(s)` on a zod issue path: `===`
comparison never equates a numeric index with a string. -/
def pathIncludes (p : List PathItem) (s : String) : Bool :=
  p.any fun item =>
    match item with
    | PathItem.key k => k = s
    | PathItem.idx _ => false

/-- Modelled from the spec: `ChatCompletionResponseSchema` lives in
src/validation.ts, which is not among the provided sources.  Per the
spec, the schema requires a non-empty `choices` list whose first element
has a `message.content` string; an empty `choices` fails at path
`choices` and absence of the `choices[0].message.content` path fails at
that path.  Returns the issue list of a zod `parse` (empty = success). -/
def chatCompletionIssues (j : Json) : List ZodIssue :=
  match jget j (("choices").data) with
  | some (Json.arr []) => [⟨[PathItem.key ("choices")]⟩]
  | some (Json.arr (c :: _)) =>
    match jget c (("message").data) with
    | some m =>
      match jget m (("content").data) with
      | some (Json.str _) => []
      | _ => [⟨[PathItem.key ("choices"), PathItem.idx 0,
                PathItem.key ("message"), PathItem.key ("content")]⟩]
    | none => [⟨[PathItem.key ("choices"), PathItem.idx 0, PathItem.key ("message")]⟩]
  | some _ => [⟨[PathItem.key ("choices")]⟩]
  | none => [⟨[PathItem.key ("choices")]⟩]

/-- The zod-error classification of `performChatCompletion`
(src/server.ts lines 208–218): message/content paths win over choices
paths; anything else falls through to the generic parse failure. -/
def classifyZodIssues (issues : List ZodIssue) : String :=
  if issues.any (fun i => pathIncludes i.path ("message") || pathIncludes i.path ("content")) then
    "Invalid API response: missing message content"
  else if issues.any (fun i => pathIncludes i.path ("choices")) then
    "Invalid API response: missing or empty choices array"
  else
    "Failed to parse JSON response from Perplexity API"

/-- The parse-and-validate step of `performChatCompletion` on an upstream
JSON body: schema failure yields the classified error and no text. -/
def chatParseStep (j : Json) : Except String Json :=
  match chatCompletionIssues j with
  | [] => Except.ok j
  | issues => Except.error (classifyZodIssues issues)

/-- Does the first choice of the body lack a string at
`message.content`?  (The condition the spec attaches to MissingContent.) -/
def lacksMessageContent (c : Json) : Bool :=
  match jget c (("message").data) with
  | some m =>
    match jget m (("content").data) with
    | some (Json.str _) => false
    | _ => true
  | none => true

/-! ### Citation appending (`performChatCompletion`, src/server.ts 229–236) -/

/-- Model of a JavaScript `forEach((x, index) => acc += f(index, x))`
accumulation loop starting from `acc`. -/
def forEachAccum (f : Nat → α → String) : Nat → String → List α → String
  | _, acc, [] => acc
  | i, acc, x :: xs => forEachAccum f (i + 1) (acc ++ f i x) xs

/-- One citation line: `"[<index+1>] <citation>\n"`. -/
def citationLine (index : Nat) (citation : String) : String :=
  "[" ++ toString (index + 1) ++ "] " ++ citation ++ "\n"

/-- Citation footnotes: if `citations` is a non-empty array, append the
literal block header and one numbered line per citation, in order. -/
def appendCitations (messageContent : String) (citations : Option (List String)) : String :=
  match citations with
  | some cs =>
    if cs.length > 0 then
      forEachAccum citationLine 0 (messageContent ++ "\n\nCitations:\n") cs
    else messageContent
  | none => messageContent

/-- Concatenation of a list of strings (no separator). -/
def strJoin : List String → String
  | [] => ""
  | s :: rest => s ++ strJoin rest

/-- Specification-side rendering of the citation block: one line
`"[i] url\n"` per citation with 1-based index `i`, in list order. -/
def specCitationBlock (cs : List String) : String :=
  strJoin ((cs.enum).map fun p => citationLine p.1 p.2)

/-! ### Filter validation (`validateFilters`, date+domain generation) -/

/-- The recency enum of the date-filter generation
(`"day" | "week" | "month" | "year"`). -/
inductive RecencyFilter where
  | day : RecencyFilter
  | week : RecencyFilter
  | month : RecencyFilter
  | year : RecencyFilter

/-- The `FilterOptions` interface: four optional date strings, an
optional recency enum, an optional domain list. -/
structure FilterOptions where
  search_after_date_filter : Option String := none
  search_before_date_filter : Option String := none
  last_updated_after_filter : Option String := none
  last_updated_before_filter : Option String := none
  search_recency_filter : Option RecencyFilter := none
  search_domain_filter : Option (List String) := none

/-- Split a char list at every slash (same shape as `splitNl`). -/
def splitSlash : List Char → List (List Char)
  | [] => [[]]
  | c :: rest =>
    if c = '/' then [] :: splitSlash rest
    else
      match splitSlash rest with
      | [] => [[c]]
      | l :: ls => (c :: l) :: ls

/-- The month alternative of the date regex: `(0?[1-9]|1[0-2])`. -/
def monthOkL : List Char → Bool
  | [c] => '1' ≤ c && c ≤ '9'
  | [c1, c2] =>
    (c1 = '0' && ('1' ≤ c2 && c2 ≤ '9')) || (c1 = '1' && ('0' ≤ c2 && c2 ≤ '2'))
  | _ => false

/-- The day alternative of the date regex: `(0?[1-9]|[12][0-9]|3[01])`. -/
def dayOkL : List Char → Bool
  | [c] => '1' ≤ c && c ≤ '9'
  | [c1, c2] =>
    (c1 = '0' && ('1' ≤ c2 && c2 ≤ '9')) ||
    ((c1 = '1' || c1 = '2') && ('0' ≤ c2 && c2 ≤ '9')) ||
    (c1 = '3' && (c2 = '0' || c2 = '1'))
  | _ => false

/-- The year part of the date regex: `[0-9]{4}`. -/
def yearOkL (l : List Char) : Bool :=
  l.length = 4 && l.all isDigitChar

/-- `dateRegex.test(s)` for
`/^(0?[1-9]|1[0-2])\/(0?[1-9]|[12][0-9]|3[01])\/[0-9]{4}$/`: anchored,
with exactly two slashes separating the three slash-free groups, so the
test is equivalent to splitting on slashes and matching each group. -/
def dateOk (s : String) : Bool :=
  match splitSlash s.data with
  | [m, d, y] => monthOkL m && dayOkL d && yearOkL y
  | _ => false

/-- Guard of each date-format check: the field is present and truthy
(JavaScript `filters.f && !dateRegex.test(filters.f)`) yet fails the
regex. -/
def badDateGuard (f : Option String) : Bool :=
  match f with
  | none => false
  | some s => !s.isEmpty && !dateOk s

/-- Truthiness of an optional string field (empty strings are falsy). -/
def strTruthyO : Option String → Bool
  | none => false
  | some s => !s.isEmpty

/-- `domain.startsWith("-")`. -/
def startsWithDash (s : String) : Bool :=
  match s.data with
  | '-' :: _ => true
  | _ => false

def msgBadAfter : String :=
  "search_after_date_filter must be in M/D/YYYY format (e.g., \x273/1/2025\x27)"

def msgBadBefore : String :=
  "search_before_date_filter must be in M/D/YYYY format (e.g., \x273/5/2025\x27)"

def msgBadLastAfter : String :=
  "last_updated_after_filter must be in M/D/YYYY format (e.g., \x273/1/2025\x27)"

def msgBadLastBefore : String :=
  "last_updated_before_filter must be in M/D/YYYY format (e.g., \x273/5/2025\x27)"

def msgConflict : String :=
  "search_recency_filter cannot be combined with other date filters"

def msgTooManyDomains : String :=
  "search_domain_filter can contain a maximum of 20 domains/URLs"

def msgMixedDomains : String :=
  "search_domain_filter cannot mix allowlist and denylist modes. Use either domains without \x27-\x27 prefix (allowlist) or domains with \x27-\x27 prefix (denylist), but not both."

/-- `validateFilters` of the date+domain generation: four date-format
checks in field order, then the recency/date conflict check, then the
domain-count check, then the mixed-mode check.  The first failing check
throws; `Except.error` carries the thrown message. -/
def validateFilters (filters : FilterOptions) : Except String Unit :=
  if badDateGuard filters.search_after_date_filter then Except.error msgBadAfter
  else if badDateGuard filters.search_before_date_filter then Except.error msgBadBefore
  else if badDateGuard filters.last_updated_after_filter then Except.error msgBadLastAfter
  else if badDateGuard filters.last_updated_before_filter then Except.error msgBadLastBefore
  else if filters.search_recency_filter.isSome &&
      (strTruthyO filters.search_after_date_filter ||
       strTruthyO filters.search_before_date_filter ||
       strTruthyO filters.last_updated_after_filter ||
       strTruthyO filters.last_updated_before_filter) then
    Except.error msgConflict
  else
    match filters.search_domain_filter with
    | none => Except.ok ()
    | some l =>
      if l.length > 20 then Except.error msgTooManyDomains
      else if (l.any fun d => !startsWithDash d) && (l.any fun d => startsWithDash d) then
        Except.error msgMixedDomains
      else Except.ok ()

/-- Does an optional domain list pass the two domain checks? -/
def domainChecksPass : Option (List String) → Bool
  | none => true
  | some l =>
    decide (l.length ≤ 20) &&
    !((l.any fun d => !startsWithDash d) && (l.any fun d => startsWithDash d))

/-- `validateDateFilters` of the date-only generation: identical to
`validateFilters` minus the domain checks. -/
def validateDateFilters (filters : FilterOptions) : Except String Unit :=
  if badDateGuard filters.search_after_date_filter then Except.error msgBadAfter
  else if badDateGuard filters.search_before_date_filter then Except.error msgBadBefore
  else if badDateGuard filters.last_updated_after_filter then Except.error msgBadLastAfter
  else if badDateGuard filters.last_updated_before_filter then Except.error msgBadLastBefore
  else if filters.search_recency_filter.isSome &&
      (strTruthyO filters.search_after_date_filter ||
       strTruthyO filters.search_before_date_filter ||
       strTruthyO filters.last_updated_after_filter ||
       strTruthyO filters.last_updated_before_filter) then
    Except.error msgConflict
  else Except.ok ()

/-! ### Search result formatting and the search engine entry -/

/-- One search result as consumed by `formatSearchResults`
(perplexity-search/server.ts interface `SearchResult`). -/
structure SearchResultR where
  title : String
  url : String
  snippet : Option String := none
  date : Option String := none
  last_updated : Option String := none

/-- The `results` field of an upstream search body as seen by
`formatSearchResults`: absent (or otherwise falsy), present but not an
array, or an actual list. -/
inductive ResultsField where
  | absent : ResultsField
  | notList : ResultsField
  | list (rs : List SearchResultR) : ResultsField

/-- The body of the `forEach` over results: numbered bold title line, URL
line, optional snippet/date/last-updated lines (skipped when falsy), and
a blank line. -/
def formatOneResult (index : Nat) (result : SearchResultR) : String :=
  toString (index + 1) ++ ". **" ++ result.title ++ "**\n" ++
  "   URL: " ++ result.url ++ "\n" ++
  (match result.snippet with
   | some s => if s.isEmpty then "" else "   " ++ s ++ "\n"
   | none => "") ++
  (match result.date with
   | some d => if d.isEmpty then "" else "   Date: " ++ d ++ "\n"
   | none => "") ++
  (match result.last_updated with
   | some u => if u.isEmpty then "" else "   Last Updated: " ++ u ++ "\n"
   | none => "") ++
  "\n"

/-- `formatSearchResults` (perplexity-search/server.ts lines 91–114; the
src/server.ts copy differs only in lacking the last-updated line): a
missing or non-list `results` yields the fixed sentence, a list yields
the `Found <N>` header followed by the formatted entries. -/
def formatSearchResults (data : ResultsField) : String :=
  match data with
  | ResultsField.list rs =>
    forEachAccum formatOneResult 0
      ("Found " ++ toString rs.length ++ " search results:\n\n") rs
  | _ => "No search results found."

/-- A search query argument: a single string or a batch of strings. -/
inductive SearchQuery where
  | single (s : String) : SearchQuery
  | batch (qs : List String) : SearchQuery

/-- The outbound search request body (query, limits, optional country). -/
structure SearchRequestBody where
  query : SearchQuery
  max_results : Nat
  max_tokens_per_page : Nat
  country : Option String

/-- The pre-dispatch part of `performSearch`
(perplexity-search/server.ts lines 119–139): the multi-query limit is
checked before the request body is constructed; a truthy `country` is
added to the body. -/
def performSearchBuild (query : SearchQuery) (maxResults : Nat)
    (maxTokensPerPage : Nat) (country : Option String) :
    Except String SearchRequestBody :=
  if (match query with
      | SearchQuery.batch qs => decide (qs.length > 5)
      | SearchQuery.single _ => false : Bool) then
    Except.error ("Maximum of 5 queries allowed per search request")
  else
    Except.ok
      { query := query, max_results := maxResults,
        max_tokens_per_page := maxTokensPerPage,
        country :=
          match country with
          | some c => if c.isEmpty then none else some c
          | none => none }

/-- The query validation of the `/mcp/call` route
(perplexity-search/server.ts lines 376–397), run before `performSearch`
is invoked. -/
def mcpCallValidateQuery (q : Json) : Except String Unit :=
  match q with
  | Json.str _ => Except.ok ()
  | Json.arr elems =>
    if !(elems.all fun e =>
        match e with
        | Json.str _ => true
        | _ => false) then
      Except.error ("Invalid arguments for perplexity-search: all query array elements must be strings")
    else if elems.length > 5 then
      Except.error ("Invalid arguments for perplexity-search: maximum of 5 queries allowed")
    else Except.ok ()
  | _ =>
    Except.error ("Invalid arguments for perplexity-search: \x27query\x27 must be a string or array of strings")

/-! ### Specification-side characterizations and concrete examples -/

/-- Numeric value of a digit string. -/
def digitsVal (l : List Char) : Nat :=
  l.foldl (fun acc c => 10 * acc + (c.toNat - 48)) 0

def allDigits (l : List Char) : Bool := l.all isDigitChar

/-- The spec wording for the month group: 1–2 digits, value 1–12. -/
def specMonthP (m : List Char) : Prop :=
  allDigits m = true ∧ (m.length = 1 ∨ m.length = 2) ∧
  1 ≤ digitsVal m ∧ digitsVal m ≤ 12

/-- The spec wording for the day group: 1–2 digits, value 1–31. -/
def specDayP (d : List Char) : Prop :=
  allDigits d = true ∧ (d.length = 1 ∨ d.length = 2) ∧
  1 ≤ digitsVal d ∧ digitsVal d ≤ 31

/-- The spec wording for the year group: exactly 4 digits. -/
def specYearP (y : List Char) : Prop :=
  allDigits y = true ∧ y.length = 4

/-- The spec wording of the whole `M/D/YYYY` format. -/
def specDateP (s : String) : Prop :=
  ∃ m d y, splitSlash s.data = [m, d, y] ∧ specMonthP m ∧ specDayP d ∧ specYearP y

/-- Specification-side rendering of a result list: the formatted entries
with 1-based numbering in rank order, concatenated. -/
def specResultsBody (rs : List SearchResultR) : String :=
  strJoin ((rs.enum).map fun p => formatOneResult p.1 p.2)

/-- First example chunk of the spec's streaming test vector. -/
def exChunk1 : List Char :=
  ("data: \x7b\"choices\":[\x7b\"delta\":\x7b\"content\":\"Hel\"\x7d\x7d]\x7d\n").data

/-- Second example chunk of the spec's streaming test vector. -/
def exChunk2 : List Char :=
  ("data: \x7b\"choices\":[\x7b\"delta\":\x7b\"content\":\"lo\"\x7d\x7d]\x7d\n").data

/-- Terminator chunk of the spec's streaming test vector. -/
def exChunk3 : List Char := ("data: [DONE]\n").data

/-- A valid delta line carrying fragment "A". -/
def exLineA : List Char :=
  ("data: \x7b\"choices\":[\x7b\"delta\":\x7b\"content\":\"A\"\x7d\x7d]\x7d").data

/-- A `data:` line whose payload is not valid JSON. -/
def exLineBad : List Char := ("data: \x7boops").data

/-- A valid delta line carrying fragment "B" and a citations array. -/
def exLineB : List Char :=
  ("data: \x7b\"citations\":[\"u\"],\"choices\":[\x7b\"delta\":\x7b\"content\":\"B\"\x7d\x7d]\x7d").data

/-- Upstream body `{"choices": []}`. -/
def emptyChoicesBody : Json := Json.obj [(("choices").data, Json.arr [])]

/-- Upstream body `{"choices":[{"message":{}}]}`. -/
def missingContentBody : Json :=
  Json.obj [(("choices").data,
    Json.arr [Json.obj [(("message").data, Json.obj [])]])]

/-! ## Theorems -/

/-! ### Shared lemmas -/

/-- A `forEach` accumulation equals the starting accumulator followed by
the joined per-element strings, indexed from the starting index. -/
theorem forEachAccum_eq {α : Type} (f : Nat → α → String) :
    ∀ (xs : List α) (i : Nat) (acc : String),
    forEachAccum f i acc xs =
      acc ++ strJoin ((xs.enumFrom i).map fun p => f p.1 p.2)
  | [], i, acc => by simp [forEachAccum, strJoin, List.enumFrom]
  | x :: xs, i, acc => by
    rw [forEachAccum, forEachAccum_eq f xs (i + 1) (acc ++ f i x)]
    simp [List.enumFrom, strJoin, String.append_assoc]

/-! ### C8: citation footnotes -/

/-- C8: when citations are present and non-empty, the returned string is
the message content, the literal citation header, then one line
`"[i] <url>\n"` per citation in order with 1-based numbering; the spec's
concrete example renders exactly as stated; absent or empty citations
leave the content unchanged. -/
theorem performChatCompletion_citations :
    (∀ content : String, appendCitations content none = content) ∧
    (∀ content : String, appendCitations content (some []) = content) ∧
    (∀ (content : String) (cs : List String), cs ≠ [] →
       appendCitations content (some cs) =
         content ++ "\n\nCitations:\n" ++ specCitationBlock cs) ∧
    appendCitations ("Answer") (some [("https://a.example"), ("https://b.example")]) =
      ("Answer\n\nCitations:\n[1] https://a.example\n[2] https://b.example\n") := by
  refine ⟨fun _ => rfl, fun _ => rfl, ?_, by decide⟩
  intro content cs h
  have hlen : 0 < cs.length := List.length_pos.mpr h
  rw [appendCitations, if_pos (by omega)]
  rw [forEachAccum_eq citationLine cs 0 (content ++ "\n\nCitations:\n")]
  rw [specCitationBlock, List.enum, String.append_assoc]

/-- Witness for C8 at a concrete non-empty citation list. -/
theorem performChatCompletion_citations_witness :
    appendCitations ("Answer") (some [("https://a.example"), ("https://b.example")]) =
      ("Answer") ++ "\n\nCitations:\n" ++
        specCitationBlock [("https://a.example"), ("https://b.example")] :=
  performChatCompletion_citations.2.2.1 ("Answer")
    [("https://a.example"), ("https://b.example")] (by decide)

/-! ### C1: search result formatting -/

/-- C1 (amended): the formatter returns the literal sentence exactly when
the `results` field is missing or not a list; an actual result list —
including the empty list — produces the `Found <N>` header followed by
the numbered entries, and the spec's one-result example renders exactly
as stated. -/
theorem formatSearchResults_spec :
    formatSearchResults ResultsField.absent = "No search results found." ∧
    formatSearchResults ResultsField.notList = "No search results found." ∧
    (∀ rs : List SearchResultR,
       formatSearchResults (ResultsField.list rs) =
         "Found " ++ toString rs.length ++ " search results:\n\n" ++ specResultsBody rs) ∧
    formatSearchResults (ResultsField.list [{ title := "T", url := "U" }]) =
      "Found 1 search results:\n\n1. **T**\n   URL: U\n\n" := by
  refine ⟨rfl, rfl, ?_, by decide⟩
  intro rs
  rw [formatSearchResults, forEachAccum_eq formatOneResult rs 0]
  rw [specResultsBody, List.enum, String.append_assoc]

/-- C1 counterexample: an empty result list does not produce the literal
sentence — it produces the header form `"Found 0 search results:\n\n"`. -/
theorem formatSearchResults_emptyList_cex :
    formatSearchResults (ResultsField.list []) = "Found 0 search results:\n\n" ∧
    formatSearchResults (ResultsField.list []) ≠ "No search results found." := by
  exact ⟨rfl, by decide⟩

/-! ### C10: the multi-query batch limit -/

/-- C10: a query batch of more than 5 strings is rejected — by
`performSearch` before any request body is constructed, and by the
`/mcp/call` route before `performSearch` is invoked — while batches of at
most 5 strings and single-string queries pass this check and reach body
construction. -/
theorem performSearch_batchLimit :
    (∀ (qs : List String) (mr mt : Nat) (c : Option String), qs.length > 5 →
       performSearchBuild (SearchQuery.batch qs) mr mt c =
         Except.error ("Maximum of 5 queries allowed per search request") ∧
       mcpCallValidateQuery (Json.arr (qs.map fun q => Json.str q.data)) =
         Except.error ("Invalid arguments for perplexity-search: maximum of 5 queries allowed")) ∧
    (∀ (qs : List String) (mr mt : Nat) (c : Option String), qs.length ≤ 5 →
       ∃ body, performSearchBuild (SearchQuery.batch qs) mr mt c = Except.ok body) ∧
    (∀ (s : String) (mr mt : Nat) (c : Option String),
       ∃ body, performSearchBuild (SearchQuery.single s) mr mt c = Except.ok body) := by
  refine ⟨?_, ?_, ?_⟩
  · intro qs mr mt c h
    refine ⟨?_, ?_⟩
    · simp only [performSearchBuild]
      rw [if_pos (decide_eq_true h)]
    · simp only [mcpCallValidateQuery]
      rw [if_neg (by simp [List.all_map, Function.comp]), if_pos (by simpa using h)]
  · intro qs mr mt c h
    refine ⟨{ query := SearchQuery.batch qs, max_results := mr, max_tokens_per_page := mt,
              country := match c with
                | some cc => if cc.isEmpty then none else some cc
                | none => none }, ?_⟩
    simp only [performSearchBuild]
    rw [if_neg (by simp; omega)]
  · intro s mr mt c
    exact ⟨_, rfl⟩

/-- Witness for C10: a batch of 6 queries is rejected, a batch of 5 and a
single query are accepted by this check. -/
theorem performSearch_batchLimit_witness :
    (performSearchBuild (SearchQuery.batch ["a", "b", "c", "d", "e", "f"]) 10 1024 none =
       Except.error ("Maximum of 5 queries allowed per search request")) ∧
    (∃ body, performSearchBuild (SearchQuery.batch ["a", "b", "c", "d", "e"]) 10 1024 none =
       Except.ok body) ∧
    (∃ body, performSearchBuild (SearchQuery.single "a") 10 1024 none = Except.ok body) :=
  ⟨(performSearch_batchLimit.1 ["a", "b", "c", "d", "e", "f"] 10 1024 none (by decide)).1,
   performSearch_batchLimit.2.1 ["a", "b", "c", "d", "e"] 10 1024 none (by decide),
   performSearch_batchLimit.2.2 "a" 10 1024 none⟩

/-! ### C2: message validation -/

/-- An element passes `checkMessage` exactly when `goodMessage` holds. -/
theorem checkMessage_ok_iff (i : Nat) (m : Json) :
    checkMessage i m = Except.ok () ↔ goodMessage m = true := by
  rw [checkMessage, goodMessage]
  cases h1 : jsTruthy m
  · simp
  cases h2 : jsTypeofObject m
  · simp
  simp only [Bool.not_true, Bool.or_self, Bool.true_and]
  rcases hr : jget m (("role").data) with _ | r
  · simp [jsTruthyO, isJsonStr]
  rcases r with _ | rb | rlex | rs | ra | ro <;>
    try (simp [jsTruthyO, isJsonStr, jsTruthy]; done)
  by_cases hs : rs = []
  · simp [jsTruthyO, isJsonStr, jsTruthy, hs]
  rcases hc : jget m (("content").data) with _ | c
  · simp [jsTruthyO, isJsonStr, jsTruthy, hs]
  rcases c <;> simp [jsTruthyO, isJsonStr, jsTruthy, hs]

/-- The index loop succeeds exactly when every element is good
(the starting index only affects error text, not acceptance). -/
theorem validateMessagesLoop_ok_iff :
    ∀ (ms : List Json) (i : Nat),
    validateMessagesLoop i ms = Except.ok () ↔ ms.all goodMessage = true
  | [], i => by simp [validateMessagesLoop]
  | m :: ms, i => by
    rw [validateMessagesLoop]
    rcases h : checkMessage i m with e | u
    · have hg : ¬ goodMessage m = true := by
        rw [← checkMessage_ok_iff i m, h]
        simp
      simp [List.all_cons, hg]
    · cases u
      have hg : goodMessage m = true := (checkMessage_ok_iff i m).mp h
      simp [List.all_cons, hg, validateMessagesLoop_ok_iff ms (i + 1)]

/-- C2 (amended): `validateMessages` accepts exactly the arrays whose
elements are objects carrying a truthy (hence non-empty) string `role`
and a string `content`; it does not restrict `role` to
system/user/assistant (the tool input schema does that separately) and it
accepts an empty `content` string. -/
theorem validateMessages_characterization :
    ∀ (messages : Json) (toolName : String),
      validateMessages messages toolName = Except.ok () ↔
      ∃ ms, messages = Json.arr ms ∧ ms.all goodMessage = true := by
  intro messages tool
  cases messages <;> simp [validateMessages, validateMessagesLoop_ok_iff]

/-- C2 counterexample: an element whose role is not in
{system, user, assistant} passes validation, and so does an element with
empty content — the claim predicts both are rejected. -/
theorem validateMessages_cex :
    validateMessages (Json.arr [Json.obj [(("role").data, Json.str (("emperor").data)),
        (("content").data, Json.str (("hi").data))]]) ("perplexity_ask") = Except.ok () ∧
    validateMessages (Json.arr [Json.obj [(("role").data, Json.str (("user").data)),
        (("content").data, Json.str [])]]) ("perplexity_ask") = Except.ok () :=
  ⟨rfl, rfl⟩

/-! ### C3: schema-failure classification -/

/-- C3: an upstream chat-completion body with an empty `choices` list
fails with the EmptyChoices classification, and a body whose first choice
lacks a `message.content` string fails with the MissingContent
classification; in both cases `chatParseStep` returns an error and no
text. -/
theorem chatParseStep_classification :
    (∀ j : Json, jget j (("choices").data) = some (Json.arr []) →
       chatParseStep j = Except.error ("Invalid API response: missing or empty choices array")) ∧
    (∀ (j c : Json) (rest : List Json),
       jget j (("choices").data) = some (Json.arr (c :: rest)) →
       lacksMessageContent c = true →
       chatParseStep j = Except.error ("Invalid API response: missing message content")) := by
  constructor
  · intro j h
    rw [chatParseStep, chatCompletionIssues, h]
    rfl
  · intro j c rest h hlack
    rw [lacksMessageContent] at hlack
    rcases hm : jget c (("message").data) with _ | m <;> rw [hm] at hlack
    · simp only [chatParseStep, chatCompletionIssues, h, hm]
      rfl
    · have hl2 : (match jget m (("content").data) with
          | some (Json.str _) => false
          | _ => true) = true := hlack
      rcases hc : jget m (("content").data) with _ | v <;> rw [hc] at hl2
      · simp only [chatParseStep, chatCompletionIssues, h, hm, hc]
        rfl
      · rcases v <;> simp only [chatParseStep, chatCompletionIssues, h, hm, hc] <;>
          first | rfl | simp at hl2

/-- Witness for C3: the spec's two concrete bodies are classified as
stated. -/
theorem chatParseStep_classification_witness :
    chatParseStep emptyChoicesBody =
      Except.error ("Invalid API response: missing or empty choices array") ∧
    chatParseStep missingContentBody =
      Except.error ("Invalid API response: missing message content") :=
  ⟨chatParseStep_classification.1 emptyChoicesBody rfl,
   chatParseStep_classification.2 missingContentBody
     (Json.obj [(("message").data, Json.obj [])]) [] rfl rfl⟩

/-! ### C7: domain filter constraints -/

/-- C7 (amended): a domain list longer than 20 entries fails with
TooManyDomains (this check runs first, even for mixed lists); a mixed
allow/deny list of at most 20 entries fails with MixedDomainMode; pure
allow-lists and pure deny-lists of at most 20 entries pass. -/
theorem validateFilters_domains :
    (∀ l : List String, l.length > 20 →
       validateFilters { search_domain_filter := some l } =
         Except.error msgTooManyDomains) ∧
    (∀ l : List String, l.length ≤ 20 →
       (l.any fun d => !startsWithDash d) = true →
       (l.any fun d => startsWithDash d) = true →
       validateFilters { search_domain_filter := some l } =
         Except.error msgMixedDomains) ∧
    (∀ l : List String, l.length ≤ 20 →
       (l.all fun d => !startsWithDash d) = true →
       validateFilters { search_domain_filter := some l } = Except.ok ()) ∧
    (∀ l : List String, l.length ≤ 20 →
       (l.all fun d => startsWithDash d) = true →
       validateFilters { search_domain_filter := some l } = Except.ok ()) := by
  refine ⟨?_, ?_, ?_, ?_⟩
  · intro l h
    simp [validateFilters, badDateGuard, strTruthyO, h]
  · intro l h h1 h2
    simp [validateFilters, badDateGuard, strTruthyO, Nat.not_lt.mpr h, h1, h2]
  · intro l h hall
    have h2 : (l.any fun d => startsWithDash d) = false := by
      rw [List.any_eq_false]
      intro d hd
      have := List.all_eq_true.mp hall d hd
      simpa using this
    simp [validateFilters, badDateGuard, strTruthyO, Nat.not_lt.mpr h, h2]
  · intro l h hall
    have h1 : (l.any fun d => !startsWithDash d) = false := by
      rw [List.any_eq_false]
      intro d hd
      have := List.all_eq_true.mp hall d hd
      simpa using this
    simp [validateFilters, badDateGuard, strTruthyO, Nat.not_lt.mpr h, h1]

/-- Witness for C7 at concrete lists. -/
theorem validateFilters_domains_witness :
    validateFilters { search_domain_filter := some (("a") :: List.replicate 20 ("b")) } =
      Except.error msgTooManyDomains ∧
    validateFilters { search_domain_filter := some [("wikipedia.org"), ("-reddit.com")] } =
      Except.error msgMixedDomains ∧
    validateFilters { search_domain_filter := some [("wikipedia.org"), ("github.com")] } =
      Except.ok () ∧
    validateFilters { search_domain_filter := some [("-reddit.com"), ("-quora.com")] } =
      Except.ok () :=
  ⟨validateFilters_domains.1 (("a") :: List.replicate 20 ("b")) (by simp),
   validateFilters_domains.2.1 [("wikipedia.org"), ("-reddit.com")] (by simp)
     (by decide) (by decide),
   validateFilters_domains.2.2.1 [("wikipedia.org"), ("github.com")] (by simp) (by decide),
   validateFilters_domains.2.2.2 [("-reddit.com"), ("-quora.com")] (by simp) (by decide)⟩

/-- C7 counterexample: a 21-entry mixed list fails with TooManyDomains,
not MixedDomainMode — the count check runs first. -/
theorem validateFilters_mixedOver20_cex :
    validateFilters { search_domain_filter := some (("a") :: List.replicate 20 ("-b")) } =
      Except.error msgTooManyDomains ∧
    msgTooManyDomains ≠ msgMixedDomains := by
  constructor
  · rfl
  · decide

/-! ### C5: recency / date-filter conflict -/

/-- C5 (amended): when recency is present together with at least one
non-empty date field and every present date field passes the format
check, validation fails with ConflictingFilters; the four date-format
checks run first, so a malformed date field raises BadDateFormat even in
the presence of the conflict.  Conversely a FilterSet not combining
recency with a non-empty date field, whose date fields pass the format
check and whose domain filter is valid, returns ok. -/
theorem validateFilters_recencyConflict :
    (∀ f : FilterOptions,
       f.search_recency_filter.isSome = true →
       (strTruthyO f.search_after_date_filter ||
        strTruthyO f.search_before_date_filter ||
        strTruthyO f.last_updated_after_filter ||
        strTruthyO f.last_updated_before_filter) = true →
       badDateGuard f.search_after_date_filter = false →
       badDateGuard f.search_before_date_filter = false →
       badDateGuard f.last_updated_after_filter = false →
       badDateGuard f.last_updated_before_filter = false →
       validateFilters f = Except.error msgConflict) ∧
    (∀ f : FilterOptions,
       (f.search_recency_filter.isSome &&
        (strTruthyO f.search_after_date_filter ||
         strTruthyO f.search_before_date_filter ||
         strTruthyO f.last_updated_after_filter ||
         strTruthyO f.last_updated_before_filter)) = false →
       badDateGuard f.search_after_date_filter = false →
       badDateGuard f.search_before_date_filter = false →
       badDateGuard f.last_updated_after_filter = false →
       badDateGuard f.last_updated_before_filter = false →
       domainChecksPass f.search_domain_filter = true →
       validateFilters f = Except.ok ()) := by
  constructor
  · intro f hrec hdate h1 h2 h3 h4
    simp [validateFilters, h1, h2, h3, h4, hrec, hdate]
  · intro f hnc h1 h2 h3 h4 hdom
    rw [validateFilters]
    rw [if_neg (by simp [h1]), if_neg (by simp [h2]), if_neg (by simp [h3]),
        if_neg (by simp [h4]), if_neg (by simp [hnc])]
    rcases hd : f.search_domain_filter with _ | l
    · rfl
    · rw [hd] at hdom
      rw [domainChecksPass] at hdom
      have hdom2 := hdom
      simp only [Bool.and_eq_true] at hdom2
      obtain ⟨hlen, hmix⟩ := hdom2
      have hlen2 : ¬ l.length > 20 := by simpa using hlen
      have hmix2 : ((l.any fun d => !startsWithDash d) &&
          (l.any fun d => startsWithDash d)) = false := by
        cases hAB : ((l.any fun d => !startsWithDash d) &&
          (l.any fun d => startsWithDash d))
        · rfl
        · rw [hAB] at hmix
          simp at hmix
      simp [hlen2, hmix2]

/-- Witness for C5: recency together with a well-formed date conflicts;
recency alone passes; a single well-formed date alone passes. -/
theorem validateFilters_recencyConflict_witness :
    validateFilters
      { search_recency_filter := some RecencyFilter.week,
        search_after_date_filter := some ("3/1/2025") } = Except.error msgConflict ∧
    validateFilters { search_recency_filter := some RecencyFilter.week } = Except.ok () ∧
    validateFilters { search_after_date_filter := some ("3/1/2025") } = Except.ok () :=
  ⟨validateFilters_recencyConflict.1
     { search_recency_filter := some RecencyFilter.week,
        search_after_date_filter := some ("3/1/2025") }
     rfl (by decide) (by decide) rfl rfl rfl,
   validateFilters_recencyConflict.2
     { search_recency_filter := some RecencyFilter.week }
     rfl rfl rfl rfl rfl rfl,
   validateFilters_recencyConflict.2
     { search_after_date_filter := some ("3/1/2025") }
     (by decide) (by decide) rfl rfl rfl rfl⟩

/-- C5 counterexample: recency combined with a malformed date field fails
with BadDateFormat, not ConflictingFilters — the format checks run before
the conflict check. -/
theorem validateFilters_conflictFormat_cex :
    validateFilters
      { search_recency_filter := some RecencyFilter.day,
        search_after_date_filter := some ("2025-03-01") } = Except.error msgBadAfter ∧
    msgBadAfter ≠ msgConflict :=
  ⟨rfl, by decide⟩

/-! ### C6: the strict M/D/YYYY date format -/

theorem char_le_toNat (a b : Char) : a ≤ b ↔ a.toNat ≤ b.toNat := Iff.rfl

theorem char_eq_toNat (a b : Char) : a = b ↔ a.toNat = b.toNat := by
  constructor
  · intro h
    rw [h]
  · intro h
    apply Char.ext
    apply UInt32.ext
    simpa [Char.toNat] using h

theorem cnZero : ('0' : Char).toNat = 48 := rfl
theorem cnOne : ('1' : Char).toNat = 49 := rfl
theorem cnTwo : ('2' : Char).toNat = 50 := rfl
theorem cnThree : ('3' : Char).toNat = 51 := rfl
theorem cnNine : ('9' : Char).toNat = 57 := rfl

/-- The month group of the regex accepts exactly 1–2 digit values 1–12. -/
theorem monthOkL_iff : ∀ m : List Char, monthOkL m = true ↔ specMonthP m := by
  intro m
  match m with
  | [] => simp [monthOkL, specMonthP]
  | [c] =>
    simp only [monthOkL, specMonthP, allDigits, isDigitChar, List.all_cons, List.all_nil,
      Bool.and_true, Bool.and_eq_true, decide_eq_true_eq, List.length_cons, List.length_nil,
      digitsVal, List.foldl_cons, List.foldl_nil, char_le_toNat,
      cnZero, cnOne, cnTwo, cnThree, cnNine, true_or, or_true, true_and, and_true]
    omega
  | [c1, c2] =>
    simp only [monthOkL, specMonthP, allDigits, isDigitChar, List.all_cons, List.all_nil,
      Bool.and_true, Bool.and_eq_true, Bool.or_eq_true, decide_eq_true_eq,
      List.length_cons, List.length_nil,
      digitsVal, List.foldl_cons, List.foldl_nil, char_le_toNat, char_eq_toNat,
      cnZero, cnOne, cnTwo, cnThree, cnNine, true_or, or_true, true_and, and_true]
    omega
  | c1 :: c2 :: c3 :: rest =>
    simp only [monthOkL, specMonthP, List.length_cons]
    constructor
    · intro h
      cases h
    · intro ⟨_, hlen, _⟩
      omega

/-- The day group of the regex accepts exactly 1–2 digit values 1–31. -/
theorem dayOkL_iff : ∀ d : List Char, dayOkL d = true ↔ specDayP d := by
  intro d
  match d with
  | [] => simp [dayOkL, specDayP]
  | [c] =>
    simp only [dayOkL, specDayP, allDigits, isDigitChar, List.all_cons, List.all_nil,
      Bool.and_true, Bool.and_eq_true, decide_eq_true_eq, List.length_cons, List.length_nil,
      digitsVal, List.foldl_cons, List.foldl_nil, char_le_toNat,
      cnZero, cnOne, cnTwo, cnThree, cnNine, true_or, or_true, true_and, and_true]
    omega
  | [c1, c2] =>
    simp only [dayOkL, specDayP, allDigits, isDigitChar, List.all_cons, List.all_nil,
      Bool.and_true, Bool.and_eq_true, Bool.or_eq_true, decide_eq_true_eq,
      List.length_cons, List.length_nil,
      digitsVal, List.foldl_cons, List.foldl_nil, char_le_toNat, char_eq_toNat,
      cnZero, cnOne, cnTwo, cnThree, cnNine, true_or, or_true, true_and, and_true]
    omega
  | c1 :: c2 :: c3 :: rest =>
    simp only [dayOkL, specDayP, List.length_cons]
    constructor
    · intro h
      cases h
    · intro ⟨_, hlen, _⟩
      omega

/-- The year group of the regex accepts exactly 4-digit strings. -/
theorem yearOkL_iff (y : List Char) : yearOkL y = true ↔ specYearP y := by
  rw [yearOkL, specYearP, allDigits]
  simp only [Bool.and_eq_true, decide_eq_true_eq]
  constructor
  · intro ⟨a, b⟩
    exact ⟨b, a⟩
  · intro ⟨a, b⟩
    exact ⟨b, a⟩

/-- The regex test is exactly the spec's `M/D/YYYY` description. -/
theorem dateOk_iff_spec (s : String) : dateOk s = true ↔ specDateP s := by
  rw [dateOk, specDateP]
  rcases h : splitSlash s.data with _ | ⟨m, _ | ⟨d, _ | ⟨y, _ | ⟨w, ws⟩⟩⟩⟩ <;>
    simp [monthOkL_iff, dayOkL_iff, yearOkL_iff, Bool.and_eq_true]
  constructor
  · intro ⟨⟨a, b⟩, c⟩
    exact ⟨m, d, y, ⟨rfl, rfl, rfl⟩, a, b, c⟩
  · rintro ⟨m1, d1, y1, ⟨rfl, rfl, rfl⟩, a, b, c⟩
    exact ⟨⟨a, b⟩, c⟩

/-- C6 (amended): for each of the four date fields, a present non-empty
string passes validation iff it matches the strict M/D/YYYY pattern
(equivalently, per `dateOk_iff_spec`, 1–2 digit month 1–12, 1–2 digit day
1–31, 4-digit year), and on failure the error names the offending field;
a present empty string is skipped by the truthiness guard and passes.
The spec's example strings behave as listed. -/
theorem validateFilters_dateFormat :
    (∀ s : String, s.isEmpty = false →
      ((validateFilters { search_after_date_filter := some s } = Except.ok () ↔
          dateOk s = true) ∧
       (dateOk s = false →
          validateFilters { search_after_date_filter := some s } =
            Except.error msgBadAfter)) ∧
      ((validateFilters { search_before_date_filter := some s } = Except.ok () ↔
          dateOk s = true) ∧
       (dateOk s = false →
          validateFilters { search_before_date_filter := some s } =
            Except.error msgBadBefore)) ∧
      ((validateFilters { last_updated_after_filter := some s } = Except.ok () ↔
          dateOk s = true) ∧
       (dateOk s = false →
          validateFilters { last_updated_after_filter := some s } =
            Except.error msgBadLastAfter)) ∧
      ((validateFilters { last_updated_before_filter := some s } = Except.ok () ↔
          dateOk s = true) ∧
       (dateOk s = false →
          validateFilters { last_updated_before_filter := some s } =
            Except.error msgBadLastBefore))) ∧
    (∀ s : String, dateOk s = true ↔ specDateP s) ∧
    dateOk ("3/1/2025") = true ∧
    dateOk ("12/31/2025") = true ∧
    dateOk ("2025-03-01") = false ∧
    dateOk ("13/1/2025") = false ∧
    dateOk ("3/32/2025") = false := by
  refine ⟨?_, dateOk_iff_spec, by decide, by decide, by decide, by decide, by decide⟩
  intro s hse
  refine ⟨⟨?_, ?_⟩, ⟨?_, ?_⟩, ⟨?_, ?_⟩, ⟨?_, ?_⟩⟩ <;>
    cases hd : dateOk s <;>
      simp [validateFilters, badDateGuard, strTruthyO, hse, hd]

/-- Witness for C6: a well-formed date passes, a malformed one fails with
the field-naming error. -/
theorem validateFilters_dateFormat_witness :
    validateFilters { search_after_date_filter := some ("3/1/2025") } = Except.ok () ∧
    validateFilters { search_before_date_filter := some ("2025-03-01") } =
      Except.error msgBadBefore :=
  ⟨((validateFilters_dateFormat.1 ("3/1/2025") rfl).1.1).mpr rfl,
   ((validateFilters_dateFormat.1 ("2025-03-01") rfl).2.1.2) rfl⟩

/-- C6 counterexample: the empty string is a present date-filter value
that does not match M/D/YYYY, yet validation passes — JavaScript
truthiness skips empty date strings. -/
theorem validateFilters_emptyDate_cex :
    validateFilters { search_after_date_filter := some "" } = Except.ok () ∧
    dateOk "" = false :=
  ⟨rfl, rfl⟩

/-! ### Line-buffering lemmas for the streaming assembler -/

theorem splitNl_ne_nil : ∀ s : List Char, splitNl s ≠ []
  | [] => by simp [splitNl]
  | c :: rest => by
    rw [splitNl]
    split
    · simp
    · split <;> simp

theorem splitNl_cons_nl (rest : List Char) :
    splitNl ('\n' :: rest) = [] :: splitNl rest := by
  rw [splitNl, if_pos rfl]

theorem splitNl_cons_ne (c : Char) (rest : List Char) (h : ¬ c = '\n')
    (l : List Char) (ls : List (List Char)) (hr : splitNl rest = l :: ls) :
    splitNl (c :: rest) = (c :: l) :: ls := by
  rw [splitNl, if_neg h, hr]

theorem getLastD_of_ne_nil {α : Type} (l : List α) (a b : α) (h : l ≠ []) :
    l.getLastD a = l.getLastD b := by
  simp only [List.getLastD_eq_getLast?]
  cases hl : l.getLast?
  · rw [List.getLast?_eq_none_iff] at hl
    exact absurd hl h
  · rfl

theorem getLastD_append {α : Type} (l1 l2 : List α) (d : α) (h : l2 ≠ []) :
    (l1 ++ l2).getLastD d = l2.getLastD d := by
  simp [List.getLastD_eq_getLast?, List.getLast?_append_of_ne_nil _ h]

/-- Splitting a concatenation: the complete lines of `x` come first, and
the retained last piece of `x` is prefixed onto `y` before splitting —
the invariant behind the chunk-buffering loop. -/
theorem splitNl_append : ∀ (x y : List Char),
    splitNl (x ++ y) = (splitNl x).dropLast ++ splitNl ((splitNl x).getLastD [] ++ y)
  | [], y => by simp [splitNl]
  | c :: x, y => by
    by_cases hc : c = '\n'
    · subst hc
      rw [List.cons_append, splitNl_cons_nl, splitNl_cons_nl, splitNl_append x y,
        List.dropLast_cons_of_ne_nil (splitNl_ne_nil x), List.getLastD_cons,
        List.cons_append]
    · rcases hsx : splitNl x with _ | ⟨l, ls⟩
      · exact absurd hsx (splitNl_ne_nil x)
      rcases hsxy : splitNl (x ++ y) with _ | ⟨l2, ls2⟩
      · exact absurd hsxy (splitNl_ne_nil (x ++ y))
      rw [List.cons_append, splitNl_cons_ne c (x ++ y) hc l2 ls2 hsxy,
        splitNl_cons_ne c x hc l ls hsx]
      have hind := splitNl_append x y
      rw [hsx, hsxy] at hind
      cases ls with
      | nil =>
        simp only [List.dropLast_single, List.getLastD_cons, List.getLastD,
          List.getLast_singleton, List.nil_append] at hind ⊢
        rw [List.cons_append]
        rw [splitNl_cons_ne c (l ++ y) hc l2 ls2 hind.symm]
      | cons l3 ls3 =>
        simp only [List.dropLast_cons₂, List.getLastD_cons, List.cons_append] at hind ⊢
        obtain ⟨h1, h2⟩ := List.cons_eq_cons.mp hind
        subst h1
        rw [h2]

/-- A newline-free text splits into itself alone. -/
theorem splitNl_of_noNl : ∀ s : List Char, '\n' ∉ s → splitNl s = [s]
  | [], _ => rfl
  | c :: rest, h => by
    have hc : ¬ c = '\n' := fun hx => h (hx ▸ List.mem_cons_self c rest)
    have hr : splitNl rest = [rest] :=
      splitNl_of_noNl rest (fun hx => h (List.mem_cons_of_mem c hx))
    exact splitNl_cons_ne c rest hc rest [] hr

/-- The retained last piece never contains a newline. -/
theorem noNl_splitNl_getLastD : ∀ s : List Char, '\n' ∉ (splitNl s).getLastD []
  | [] => by simp [splitNl]
  | c :: rest => by
    by_cases hc : c = '\n'
    · subst hc
      rw [splitNl_cons_nl, List.getLastD_cons]
      rw [getLastD_of_ne_nil (splitNl rest) [] [] (splitNl_ne_nil rest)]
      exact noNl_splitNl_getLastD rest
    · rcases hr : splitNl rest with _ | ⟨l, ls⟩
      · exact absurd hr (splitNl_ne_nil rest)
      rw [splitNl_cons_ne c rest hc l ls hr]
      have hind := noNl_splitNl_getLastD rest
      rw [hr] at hind
      cases ls with
      | nil =>
        simp only [List.getLastD_cons, List.getLastD] at hind ⊢
        intro hmem
        rcases List.mem_cons.mp hmem with h1 | h2
        · exact hc h1.symm
        · exact hind h2
      | cons l3 ls3 =>
        simpa only [List.getLastD_cons] using hind

/-- The line step never touches the retained buffer. -/
theorem processLine_buffer (st : SSEState) (l : List Char) :
    (processLine st l).buffer = st.buffer := by
  have hp : ∀ parsed, (processParsed st parsed).buffer = st.buffer := by
    intro parsed
    simp only [processParsed]
    repeat' split
    all_goals rfl
  simp only [processLine]
  repeat' split
  all_goals first | rfl | apply hp

/-- The line step commutes with overwriting the buffer (it neither reads
nor writes it). -/
theorem processLine_setBuffer (st : SSEState) (b : List Char) (l : List Char) :
    processLine { st with buffer := b } l = { processLine st l with buffer := b } := by
  have hp : ∀ parsed, processParsed { st with buffer := b } parsed =
      { processParsed st parsed with buffer := b } := by
    intro parsed
    simp only [processParsed]
    repeat' split
    all_goals rfl
  simp only [processLine]
  repeat' split
  all_goals first | rfl | apply hp

/-- The content fragments appended by one line are exactly its
`lineFragment`. -/
theorem processLine_parts (st : SSEState) (l : List Char) :
    (processLine st l).contentParts = st.contentParts ++ (lineFragment l).toList := by
  have hp : ∀ parsed, (processParsed st parsed).contentParts =
      st.contentParts ++
        (if jsTruthyO (jchainGet (jchainGet (jchainIdx0 (jget parsed (("choices").data)))
            (("delta").data)) (("content").data)) = true then
          jchainGet (jchainGet (jchainIdx0 (jget parsed (("choices").data)))
            (("delta").data)) (("content").data)
        else none).toList := by
    intro parsed
    simp only [processParsed]
    repeat' split
    all_goals simp
  simp only [processLine, lineFragment]
  repeat' split
  all_goals simp_all [hp]

theorem foldl_processLine_setBuffer :
    ∀ (lines : List (List Char)) (st : SSEState) (b : List Char),
    lines.foldl processLine { st with buffer := b } =
      { lines.foldl processLine st with buffer := b }
  | [], _, _ => rfl
  | l :: ls, st, b => by
    rw [List.foldl_cons, List.foldl_cons, processLine_setBuffer]
    exact foldl_processLine_setBuffer ls (processLine st l) b

theorem foldl_processLine_parts :
    ∀ (lines : List (List Char)) (st : SSEState),
    (lines.foldl processLine st).contentParts =
      st.contentParts ++ lines.filterMap lineFragment
  | [], st => by simp
  | l :: ls, st => by
    rw [List.foldl_cons, foldl_processLine_parts ls (processLine st l),
      processLine_parts]
    cases h : lineFragment l <;> simp [List.filterMap_cons, h]

/-- Fusing two chunk steps: feeding `c1` then `c2` is the same as feeding
`c1 ++ c2` at once — the retained buffer is prefixed onto the next chunk
and never parsed prematurely. -/
theorem processChunk_append (st : SSEState) (c1 c2 : List Char) :
    processChunk (processChunk st c1) c2 = processChunk st (c1 ++ c2) := by
  simp only [processChunk]
  rw [foldl_processLine_setBuffer]
  rw [← List.append_assoc, splitNl_append (st.buffer ++ c1) c2]
  rw [List.dropLast_append_of_ne_nil _ (splitNl_ne_nil _)]
  rw [getLastD_append _ _ _ (splitNl_ne_nil _)]
  rw [List.foldl_append]

/-- The whole stream loop only depends on the concatenation of the
chunks, provided the starting buffer is newline-free. -/
theorem foldl_processChunk_flatten :
    ∀ (chunks : List (List Char)) (st : SSEState), '\n' ∉ st.buffer →
    chunks.foldl processChunk st = processChunk st chunks.flatten
  | [], st, h => by
    simp only [List.foldl_nil, List.flatten_nil]
    simp only [processChunk, List.append_nil]
    rw [splitNl_of_noNl st.buffer h]
    simp
  | c :: cs, st, h => by
    have hb : '\n' ∉ (processChunk st c).buffer := by
      simp only [processChunk]
      exact noNl_splitNl_getLastD (st.buffer ++ c)
    rw [List.flatten_cons, List.foldl_cons,
      foldl_processChunk_flatten cs (processChunk st c) hb, processChunk_append]

/-- A line whose (trimmed, marker-stripped) payload fails to parse leaves
the accumulator untouched. -/
theorem processLine_skip (st : SSEState) (l : List Char)
    (h : parseJson (trimL ((trimL l).drop (("data:").data.length))) = none) :
    processLine st l = st := by
  simp only [processLine]
  repeat' split
  all_goals first | rfl | simp_all

/-- Removing a line with unparseable payload from anywhere in the line
sequence does not change the fold. -/
theorem foldl_processLine_erase_bad :
    ∀ (pre : List (List Char)) (st : SSEState) (bad : List Char)
      (post : List (List Char)),
    parseJson (trimL ((trimL bad).drop (("data:").data.length))) = none →
    (pre ++ bad :: post).foldl processLine st = (pre ++ post).foldl processLine st
  | [], st, bad, post, h => by
    rw [List.nil_append, List.nil_append, List.foldl_cons, processLine_skip st bad h]
  | p :: ps, st, bad, post, h => by
    rw [List.cons_append, List.cons_append, List.foldl_cons, List.foldl_cons]
    exact foldl_processLine_erase_bad ps (processLine st p) bad post h

/-! ### C4 and C9: the streaming assembler -/

/-- C4: the assembled result depends only on the concatenation of the
chunk stream — the last (possibly incomplete) line of each chunk is
retained and prefixed onto the next chunk, so line splits across chunk
boundaries are immaterial; content fragments are appended in arrival
order with no separator; and on the spec's three-chunk example the
assembled message content is exactly "Hello". -/
theorem consumeSSEStream_assembly :
    (∀ chunks : List (List Char),
       consumeSSEStream chunks = consumeSSEStream [chunks.flatten]) ∧
    (∀ (lines : List (List Char)) (st : SSEState),
       (lines.foldl processLine st).contentParts =
         st.contentParts ++ lines.filterMap lineFragment) ∧
    sseContent [exChunk1, exChunk2, exChunk3] = ("Hello").data := by
  refine ⟨?_, fun lines st => foldl_processLine_parts lines st, by rfl⟩
  intro chunks
  rw [consumeSSEStream, consumeSSEStream,
    foldl_processChunk_flatten chunks initSSE (by simp [initSSE]),
    List.foldl_cons, List.foldl_nil]

/-- C9: a `data:` line whose payload is not valid JSON never aborts
assembly — it is skipped with the state unchanged, and every line before
and after it contributes exactly as if the malformed line were absent; on
a concrete stream the fragments "A" and "B" around a malformed line still
assemble to "AB" and the citations metadata of the later line is kept. -/
theorem consumeSSEStream_skipsMalformed :
    (∀ (st : SSEState) (pre post : List (List Char)) (bad : List Char),
       startsWithL (("data:").data) (trimL bad) = true →
       parseJson (trimL ((trimL bad).drop (("data:").data.length))) = none →
       (pre ++ bad :: post).foldl processLine st =
         (pre ++ post).foldl processLine st) ∧
    sseContent [exLineA ++ ['\n'], exLineBad ++ ['\n'], exLineB ++ ['\n']] =
      ("AB").data ∧
    (consumeSSEStream [exLineA ++ ['\n'], exLineBad ++ ['\n'], exLineB ++ ['\n']]).citations =
      some (Json.arr [Json.str (("u").data)]) := by
  refine ⟨?_, by rfl, by rfl⟩
  intro st pre post bad _ hnone
  exact foldl_processLine_erase_bad pre st bad post hnone

/-- Witness for C9: dropping the concrete malformed line from between two
valid lines leaves the fold unchanged. -/
theorem consumeSSEStream_skipsMalformed_witness :
    ([exLineA] ++ exLineBad :: [exLineB]).foldl processLine initSSE =
      ([exLineA] ++ [exLineB]).foldl processLine initSSE :=
  consumeSSEStream_skipsMalformed.1 initSSE [exLineA] [exLineB] exLineBad rfl rfl
